import Mathlib

/-!
Shallow embedding of the field-to-validation-schema compiler
(`generateZodSchema` in `src/lib/form-utils.ts`) of the form-generator
repository, together with the Zod v3 parsing semantics the compiled
schemas rely on (string/number/boolean/date/array/tuple type checks,
non-fatal check lists, `refine`/`superRefine`, `transform`, `optional`,
`default`, and `z.object` aggregation in strip mode).

JavaScript runtime values are modelled by `Value`; machine numbers are
modelled by exact rationals; strings are Lean strings (faithful for the
ASCII data the rules inspect); a JS `Date` object is `Value.date t` with
`t = none` standing for an Invalid Date.  Host `new Date(x)` string
parsing is modelled for ISO `YYYY-MM-DD` literals only (no claim depends
on date-string parsing).
-/

namespace FormGen

/-- A JavaScript runtime value, as far as the compiled validators inspect it. -/
inductive Value where
  | undef
  | null
  | str (s : String)
  | num (q : ℚ)
  | bool (b : Bool)
  | date (t : Option ℚ)
  | file (size : ℕ)
  | arr (vs : List Value)

/-- The `typeof`-style name Zod's default error map prints for a value. -/
def Value.typeName : Value → String
  | .undef => "undefined"
  | .null => "null"
  | .str _ => "string"
  | .num _ => "number"
  | .bool _ => "boolean"
  | .date _ => "date"
  | .file _ => "object"
  | .arr _ => "array"

/-- Outcome of running one Zod schema on one value: `aborted` models an
INVALID (fatal) parse status, `issues` the ordered issue messages, and
`value` the (possibly transformed) output value. -/
structure ParseOut where
  aborted : Bool
  issues : List String
  value : Value

/-- A `z.string()` with a list of non-fatal checks: a wrong type aborts with
Zod's default `invalid_type` message; a string runs every check, collecting
all failing messages (no short-circuit between checks). -/
def parseString (checks : List (String → Option String)) : Value → ParseOut
  | .str s => ⟨false, checks.filterMap (fun c => c s), .str s⟩
  | .undef => ⟨true, ["Required"], .undef⟩
  | v => ⟨true, ["Expected string, received " ++ v.typeName], v⟩

/-- Zod `z.string().min(n, msg)`. -/
def minCheck (n : ℕ) (msg : String) : String → Option String :=
  fun s => if s.length < n then some msg else none

/-- Zod `z.string().max(n, msg)`. -/
def maxCheck (n : ℕ) (msg : String) : String → Option String :=
  fun s => if n < s.length then some msg else none

/-- Zod `z.string().length(n, msg)`: one issue whenever the length differs. -/
def lengthCheck (n : ℕ) (msg : String) : String → Option String :=
  fun s => if s.length = n then none else some msg

/-- Zod `z.string().regex(re, msg)`, with the regex modelled by a predicate. -/
def regexCheck (p : String → Bool) (msg : String) : String → Option String :=
  fun s => if p s then none else some msg

/-- Zod `z.string().startsWith(pre, msg)`. -/
def startsWithCheck (pre msg : String) : String → Option String :=
  fun s => if pre.isPrefixOf s then none else some msg

def isAsciiUpper (c : Char) : Bool := 'A' ≤ c && c ≤ 'Z'
def isAsciiLower (c : Char) : Bool := 'a' ≤ c && c ≤ 'z'
def isAsciiDigit (c : Char) : Bool := '0' ≤ c && c ≤ '9'

/-- JS regex `/[A-Z]/.test s`. -/
def hasUpper (s : String) : Bool := s.data.any isAsciiUpper
/-- JS regex `/[a-z]/.test s`. -/
def hasLower (s : String) : Bool := s.data.any isAsciiLower
/-- JS regex `/[0-9]/.test s`. -/
def hasDigit (s : String) : Bool := s.data.any isAsciiDigit
/-- JS regex `/[^A-Za-z0-9]/.test s`. -/
def hasSpecial (s : String) : Bool :=
  s.data.any (fun c => !(isAsciiUpper c || isAsciiLower c || isAsciiDigit c))
/-- JS regex `/^\d+$/.test s`. -/
def allDigits (s : String) : Bool := !s.data.isEmpty && s.data.all isAsciiDigit

/-- JS regex `/^\+?[1-9]\d\x7b1,14\x7d$/.test s`. -/
def phoneOk (s : String) : Bool :=
  let cs := match s.data with
    | '+' :: rest => rest
    | cs => cs
  match cs with
  | c :: rest =>
      ('1' ≤ c && c ≤ '9') && rest.all isAsciiDigit &&
        (1 ≤ rest.length && rest.length ≤ 14)
  | [] => false

/-- Zod `.transform f`: the transform runs only when the inner parse is fully
valid; an aborted or dirty inner result is returned unchanged (so the raw,
untransformed value is passed along). -/
def withTransform (inner : Value → ParseOut) (f : Value → Value) (v : Value) : ParseOut :=
  let b := inner v
  if b.aborted || !b.issues.isEmpty then b else { b with value := f b.value }

/-- Zod `.refine` / `.superRefine`: runs on the inner output unless the inner
parse aborted, appending its issues after the inner ones. -/
def withRefine (inner : Value → ParseOut) (extra : Value → List String) (v : Value) : ParseOut :=
  let b := inner v
  if b.aborted then b else { b with issues := b.issues ++ extra b.value }

/-- Zod `.optional()`: `undefined` passes through untouched; anything else
(including `null` and the empty string) runs the inner schema. -/
def withOptional (inner : Value → ParseOut) : Value → ParseOut
  | .undef => ⟨false, [], .undef⟩
  | v => inner v

/-- Zod `.default(d)`: `undefined` is replaced by the default before the inner
schema runs. -/
def withDefault (inner : Value → ParseOut) (d : Value) : Value → ParseOut
  | .undef => inner d
  | v => inner v

/-- Zod `z.boolean()`. -/
def parseBoolean : Value → ParseOut
  | .bool b => ⟨false, [], .bool b⟩
  | .undef => ⟨true, ["Required"], .undef⟩
  | v => ⟨true, ["Expected boolean, received " ++ v.typeName], v⟩

/-- Zod `z.number()` with a list of non-fatal checks. -/
def parseNumber (checks : List (ℚ → Option String)) : Value → ParseOut
  | .num q => ⟨false, checks.filterMap (fun c => c q), .num q⟩
  | .undef => ⟨true, ["Required"], .undef⟩
  | v => ⟨true, ["Expected number, received " ++ v.typeName], v⟩

/-- Zod `z.number().min m` (inclusive, Zod default message). -/
def gteCheck (m : ℚ) : ℚ → Option String :=
  fun q => if q < m then
    some ("Number must be greater than or equal to " ++ toString m) else none

/-- Zod `z.number().max m` (inclusive, Zod default message). -/
def lteCheck (m : ℚ) : ℚ → Option String :=
  fun q => if m < q then
    some ("Number must be less than or equal to " ++ toString m) else none

/-- Zod's `floatSafeRemainder(q, st) == 0`: `q` is an integer multiple of
`st` (for `st = 0` the JS remainder is `NaN`, which never compares equal).
Written on numerators/denominators: `q / st` is an integer iff
`st.num * q.den` divides `q.num * st.den`. -/
def isMultipleOf (q st : ℚ) : Bool :=
  if st = 0 then false else (q.num * (st.den : ℤ)) % (st.num * (q.den : ℤ)) == 0

/-- Zod `z.number().step st` (alias of `multipleOf`, Zod default message). -/
def stepCheck (st : ℚ) : ℚ → Option String :=
  fun q => if isMultipleOf q st then none
    else some ("Number must be a multiple of " ++ toString st)

/-- Days since the Unix epoch of a proleptic-Gregorian civil date. -/
def daysFromCivil (y : ℤ) (m d : ℕ) : ℤ :=
  let y' : ℤ := if m ≤ 2 then y - 1 else y
  let era : ℤ := (if 0 ≤ y' then y' else y' - 399) / 400
  let yoe : ℤ := y' - era * 400
  let mp : ℤ := if 2 < m then (m : ℤ) - 3 else (m : ℤ) + 9
  let doy : ℤ := (153 * mp + 2) / 5 + (d : ℤ) - 1
  let doe : ℤ := yoe * 365 + yoe / 4 - yoe / 100 + doy
  era * 146097 + doe - 719468

def isLeapYear (y : ℤ) : Bool := y % 4 = 0 && (y % 100 ≠ 0 || y % 400 = 0)

def daysInMonth (y : ℤ) (m : ℕ) : ℕ :=
  if m = 2 then (if isLeapYear y then 29 else 28)
  else if m = 4 || m = 6 || m = 9 || m = 11 then 30 else 31

/-- JS `String.prototype.trim` on the character list: strip whitespace from
both ends (faithful for the ASCII whitespace the rules meet). -/
def trimChars (l : List Char) : List Char :=
  ((l.dropWhile Char.isWhitespace).reverse.dropWhile Char.isWhitespace).reverse

/-- JS `s.trim()`. -/
def jsTrim (s : String) : String := ⟨trimChars s.data⟩

/-- Model of the host `Date.parse` restricted to ISO `YYYY-MM-DD` date
literals: a valid civil date maps to its epoch timestamp in milliseconds,
everything else to an Invalid Date. -/
def parseJsDateString (s : String) : Option ℚ :=
  match s.splitOn "-" with
  | [y, m, d] =>
      if y.length = 4 && m.length = 2 && d.length = 2 &&
          (y.data ++ m.data ++ d.data).all isAsciiDigit then
        match y.toNat?, m.toNat?, d.toNat? with
        | some yn, some mn, some dn =>
            if 1 ≤ mn && mn ≤ 12 && 1 ≤ dn && dn ≤ daysInMonth (yn : ℤ) mn then
              some ((daysFromCivil (yn : ℤ) mn dn : ℚ) * 86400000)
            else none
        | _, _, _ => none
      else none
  | _ => none

/-- Host `new Date(x)`: `none` models an Invalid Date. -/
def jsNewDate : Value → Option ℚ
  | .num q => some q
  | .null => some 0
  | .bool b => some (if b then 1 else 0)
  | .date t => t
  | .str s => parseJsDateString s
  | .undef => none
  | .file _ => none
  | .arr _ => none

/-- Zod `z.coerce.date(...)`: the input is first coerced with `new Date`; the
result is always a `Date` object, so only the `invalid_date` issue (Zod
default message, the custom `required_error` / `invalid_type_error` are
unreachable after coercion) can fire, and it is fatal. -/
def parseCoerceDate (v : Value) : ParseOut :=
  match jsNewDate v with
  | none => ⟨true, ["Invalid date"], .date none⟩
  | some t => ⟨false, [], .date (some t)⟩

/-- Zod `z.instanceof(File)`: a fatal custom check. -/
def parseFile : Value → ParseOut
  | .file n => ⟨false, [], .file n⟩
  | v => ⟨true, ["Input not instance of File"], v⟩

/-- Zod `.array()` with array-level checks: array-level issues come first, then
each element's issues in order; a fatal element aborts the whole array. -/
def parseArray (elem : Value → ParseOut) (checks : List (List Value → Option String)) :
    Value → ParseOut
  | .arr vs =>
      let rs := vs.map elem
      ⟨rs.any (·.aborted),
        checks.filterMap (fun c => c vs) ++ (rs.map (·.issues)).flatten,
        .arr (rs.map (·.value))⟩
  | .undef => ⟨true, ["Required"], .undef⟩
  | v => ⟨true, ["Expected array, received " ++ v.typeName], v⟩

/-- Zod `z.array(...).min(n, msg)`. -/
def arrMinCheck (n : ℕ) (msg : String) : List Value → Option String :=
  fun vs => if vs.length < n then some msg else none

/-- Zod `z.array(...).max(n, msg)`. -/
def arrMaxCheck (n : ℕ) (msg : String) : List Value → Option String :=
  fun vs => if n < vs.length then some msg else none

/-- Zod `z.tuple([z.string().min(1, "Country is required"), z.string().optional()])`:
a short array is a fatal `too_small`; an overlong array is a non-fatal
`too_big`; the two component schemas then run positionally. -/
def parseLocation : Value → ParseOut
  | .arr vs =>
      if vs.length < 2 then
        ⟨true, ["Array must contain at least 2 element(s)"], .arr vs⟩
      else
        let extra := if 2 < vs.length then
          ["Array must contain at most 2 element(s)"] else []
        let r0 := parseString [minCheck 1 "Country is required"] (vs.getD 0 .undef)
        let r1 := withOptional (parseString []) (vs.getD 1 .undef)
        ⟨r0.aborted || r1.aborted, extra ++ r0.issues ++ r1.issues,
          .arr [r0.value, r1.value]⟩
  | .undef => ⟨true, ["Required"], .undef⟩
  | v => ⟨true, ["Expected array, received " ++ v.typeName], v⟩

/-- Modelled from the spec and `src/app/actions/schema.ts` (the `@/types`
module itself is not under `src/`): the validation-relevant pieces of a
field descriptor.  Descriptor fields with no validation impact
(`description`, `placeholder`, `disabled`, `rowIndex`, `locale`, `hour12`,
`className`, `type`, `value`) are omitted.  `variant` is a plain string:
the compiler dispatches on it and falls back on anything unrecognized. -/
structure FormField where
  name : String
  label : String
  variant : String
  required : Bool := false
  checked : Bool := true
  min : Option ℚ := none
  max : Option ℚ := none
  step : Option ℚ := none
  deriving DecidableEq

/-- JS `x || d` for an optional number `x`: the default applies when the
value is absent or falsy (i.e. equal to 0). -/
def jsOr (x : Option ℚ) (d : ℚ) : ℚ :=
  match x with
  | none => d
  | some q => if q = 0 then d else q

/-- The `value`s of the `languages` constant in `src/lib/form-utils.ts`. -/
def languageValues : List String :=
  ["en", "fr", "de", "es", "pt", "ru", "ja", "ko", "zh"]

/-- The `switch (field.variant)` of `generateZodSchema`: the base rule of a
field, before required/optional composition. -/
def baseSchema (field : FormField) : Value → ParseOut :=
  if field.variant = "Checkbox" ∨ field.variant = "Switch" then
    withDefault parseBoolean (.bool field.checked)
  else if field.variant = "Combobox" then
    withRefine (parseString [minCheck 1 "Please select a language"])
      (fun v => match v with
        | .str s => if languageValues.contains s then []
            else ["Please select a valid language"]
        | _ => ["Please select a valid language"])
  else if field.variant = "Date Picker" ∨ field.variant = "Datetime Picker" ∨
      field.variant = "Smart Datetime Input" then
    parseCoerceDate
  else if field.variant = "File Input" then
    withRefine
      (withRefine (withOptional (parseArray parseFile []))
        (fun v => match v with
          | .arr vs =>
              if vs.all (fun w => match w with
                  | .file n => n ≤ 4 * 1024 * 1024
                  | _ => true) then []
              else ["Each file must be less than 4MB"]
          | _ => []))
      (fun v => match v with
        | .arr vs => if vs.length ≤ 5 then [] else ["Maximum 5 files allowed"]
        | _ => [])
  else if field.variant = "Input" then
    withTransform (parseString [minCheck 1 "This field is required"])
      (fun v => match v with | .str s => .str (jsTrim s) | v => v)
  else if field.variant = "Input OTP" then
    parseString [lengthCheck 6 "OTP must be exactly 6 digits",
      regexCheck allDigits "OTP must contain only numbers"]
  else if field.variant = "Location Input" then
    parseLocation
  else if field.variant = "Multi Select" then
    parseArray (parseString [])
      [arrMinCheck 1 "Please select at least one option",
        arrMaxCheck 10 "Maximum 10 selections allowed"]
  else if field.variant = "Password" then
    parseString [minCheck 8 "Password must be at least 8 characters",
      regexCheck hasUpper "Password must contain at least one uppercase letter",
      regexCheck hasLower "Password must contain at least one lowercase letter",
      regexCheck hasDigit "Password must contain at least one number",
      regexCheck hasSpecial "Password must contain at least one special character"]
  else if field.variant = "Phone" then
    parseString [minCheck 1 "Phone number is required",
      regexCheck phoneOk "Please enter a valid phone number"]
  else if field.variant = "Select" then
    parseString [minCheck 1 "Please select an option"]
  else if field.variant = "Signature Input" then
    parseString [minCheck 1 "Signature is required",
      startsWithCheck "data:image/" "Invalid signature format"]
  else if field.variant = "Slider" then
    parseNumber [gteCheck (jsOr field.min 0), lteCheck (jsOr field.max 100),
      stepCheck (jsOr field.step 1)]
  else if field.variant = "Tags Input" then
    withRefine
      (parseArray (parseString [])
        [arrMinCheck 1 "Please add at least one tag",
          arrMaxCheck 20 "Maximum 20 tags allowed"])
      (fun v => match v with
        | .arr vs =>
            if vs.all (fun w => match w with
                | .str s => s.length ≤ 50
                | _ => true) then []
            else ["Each tag must be less than 50 characters"]
        | _ => [])
  else if field.variant = "Textarea" then
    withTransform (parseString [minCheck 1 "This field is required",
        maxCheck 1000 "Maximum 1000 characters allowed"])
      (fun v => match v with | .str s => .str (jsTrim s) | v => v)
  else
    parseString []

/-- The issues added by the `superRefine` installed for required fields:
fires exactly when the (possibly transformed) candidate value is
`undefined`, `null`, or the empty string. -/
def requiredIssues (label : String) : Value → List String
  | .undef => [label ++ " is required"]
  | .null => [label ++ " is required"]
  | .str s => if s = "" then [label ++ " is required"] else []
  | _ => []

/-- The per-field validator: the variant's base rule composed with the
required/optional wrapper of `generateZodSchema`. -/
def compileField (field : FormField) : Value → ParseOut :=
  if field.required then
    withRefine (baseSchema field) (requiredIssues field.label)
  else
    withOptional (baseSchema field)

abbrev FieldValidator := Value → ParseOut
abbrev SchemaMap := List (String × FieldValidator)

/-- JS `schemaMap[k] = v` on a string-keyed object: an existing key keeps
its position and gets the new value; a new key is appended.  (The maps the
compiler builds always have distinct keys, so updating the first occurrence
is exactly the JS object-assignment semantics.) -/
def insertKey : SchemaMap → String → FieldValidator → SchemaMap
  | [], k, v => [(k, v)]
  | p :: ps, k, v => if p.1 == k then (k, v) :: ps else p :: insertKey ps k v

/-- Function `generateZodSchema` of `src/lib/form-utils.ts`: build each field's
validator and store it in the schema map keyed by the field's name. -/
def generateZodSchema (fields : List FormField) : SchemaMap :=
  fields.foldl (fun m field => insertKey m field.name (compileField field)) []

/-- A submission record: a string-keyed JS object. -/
abbrev Record := List (String × Value)

def hasKey (r : Record) (k : String) : Bool := r.any (fun p => p.1 == k)

/-- Reading `record[k]`: a missing key reads as `undefined`. -/
def getVal (r : Record) (k : String) : Value :=
  match r.find? (fun p => p.1 == k) with
  | some p => p.2
  | none => .undef

structure ValidationResult where
  ok : Bool
  values : Record
  errors : List (String × List String)

/-- Whether `z.object` keeps a parsed key in the output object: kept when
the output value is defined or the key was present in the input. -/
def keepValue : Value → Bool → Bool
  | .undef, present => present
  | _, _ => true

/-- Zod `z.object(schemaMap).safeParse(record)` in strip mode: every keyed
validator runs (no early abort), unknown input keys are ignored, all
per-field issues are collected, and the output carries each field's
(coerced) output value. -/
def validate (schema : SchemaMap) (r : Record) : ValidationResult where
  ok := schema.all (fun p => (p.2 (getVal r p.1)).issues.isEmpty)
  values := schema.filterMap (fun p =>
    let out := p.2 (getVal r p.1)
    if keepValue out.value (hasKey r p.1) then some (p.1, out.value) else none)
  errors := schema.filterMap (fun p =>
    let out := p.2 (getVal r p.1)
    if out.issues.isEmpty then none else some (p.1, out.issues))

/-- Looking a field's validator up in the schema map. -/
def lookupSchema (m : SchemaMap) (n : String) : Option FieldValidator :=
  (m.find? (fun p => p.1 == n)).map Prod.snd

/-! ### Structural lemmas about schema-map assembly -/

theorem lookup_insertKey (m : SchemaMap) (k n : String) (v : FieldValidator) :
    lookupSchema (insertKey m k v) n = if n = k then some v else lookupSchema m n := by
  induction m with
  | nil =>
      by_cases h : n = k
      · subst h; simp [insertKey, lookupSchema]
      · have : ¬(k == n) := by simp [Ne.symm h]
        simp [insertKey, lookupSchema, List.find?_cons_of_neg, this, h]
  | cons p ps ih =>
      by_cases hpk : p.1 = k
      · have hb : (p.1 == k) = true := by simp [hpk]
        by_cases h : n = k
        · subst h
          simp [insertKey, hb, lookupSchema, List.find?_cons_of_pos, beq_iff_eq]
        · have h1 : ¬(k == n) := by simp [Ne.symm h]
          have h2 : ¬(p.1 == n) := by simp [hpk, Ne.symm h]
          simp [insertKey, hb, lookupSchema, List.find?_cons_of_neg, h1, h2, h]
      · have hb : ¬(p.1 == k) := by simp [hpk]
        by_cases hpn : p.1 = n
        · have h1 : (p.1 == n) = true := by simp [hpn]
          have h2 : n ≠ k := by rw [← hpn]; exact hpk
          simp [insertKey, hb, lookupSchema, List.find?_cons_of_pos, h1, h2]
        · have h1 : ¬(p.1 == n) := by simp [hpn]
          simp [insertKey, hb, lookupSchema, List.find?_cons_of_neg, h1]
          exact ih

theorem mem_insertKey : ∀ {m : SchemaMap} {k : String} {v : FieldValidator}
    {p : String × FieldValidator}, p ∈ insertKey m k v → p ∈ m ∨ p = (k, v)
  | [], k, v, p, h => by
      rw [insertKey] at h
      exact Or.inr (by simpa using h)
  | q :: qs, k, v, p, h => by
      rw [insertKey] at h
      by_cases hq : (q.1 == k) = true
      · rw [if_pos hq] at h
        rcases List.mem_cons.mp h with h1 | h1
        · exact Or.inr h1
        · exact Or.inl (List.mem_cons_of_mem _ h1)
      · rw [if_neg hq] at h
        rcases List.mem_cons.mp h with h1 | h1
        · exact Or.inl (h1 ▸ List.mem_cons_self _ _)
        · rcases mem_insertKey h1 with h2 | h2
          · exact Or.inl (List.mem_cons_of_mem _ h2)
          · exact Or.inr h2

theorem keys_insertKey (m : SchemaMap) (k : String) (v : FieldValidator) :
    (insertKey m k v).map Prod.fst =
      if m.any (fun p => p.1 == k) then m.map Prod.fst else m.map Prod.fst ++ [k] := by
  induction m with
  | nil => simp [insertKey]
  | cons q qs ih =>
      by_cases hq : q.1 = k
      · have hb : (q.1 == k) = true := by simp [hq]
        simp [insertKey, hb, hq]
      · have hb : (q.1 == k) = false := by simp [hq]
        rw [insertKey, if_neg (by simp [hb]), List.map_cons, ih]
        by_cases ha : qs.any (fun p => p.1 == k) <;>
          simp [ha, List.any_cons, hb]

theorem nodup_keys_insertKey {m : SchemaMap} (h : (m.map Prod.fst).Nodup)
    (k : String) (v : FieldValidator) : ((insertKey m k v).map Prod.fst).Nodup := by
  rw [keys_insertKey]
  by_cases ha : m.any (fun p => p.1 == k)
  · simpa [ha] using h
  · have hk : k ∉ m.map Prod.fst := by
      intro hmem
      rcases List.mem_map.mp hmem with ⟨p, hp, hpk⟩
      exact absurd (List.any_eq_true.mpr ⟨p, hp, by simp [hpk]⟩) ha
    rw [if_neg ha]
    refine List.Nodup.append h (List.nodup_singleton k) ?_
    intro x hx hx'
    rw [List.mem_singleton] at hx'
    exact hk (hx' ▸ hx)

theorem lookup_schema_foldl (fs : List FormField) (m : SchemaMap) (n : String) :
    lookupSchema (fs.foldl (fun acc f => insertKey acc f.name (compileField f)) m) n =
      ((fs.reverse.find? (fun f => f.name == n)).map compileField).or (lookupSchema m n) := by
  induction fs generalizing m with
  | nil => simp
  | cons f rest ih =>
      simp only [List.foldl_cons, List.reverse_cons, ih, List.find?_append]
      cases hr : rest.reverse.find? (fun g => g.name == n) with
      | some g => simp
      | none =>
          simp only [Option.map_none', Option.none_or]
          rw [lookup_insertKey]
          by_cases h : n = f.name
          · have hb : (f.name == n) = true := by simp [h]
            simp [h, List.find?_cons_of_pos, hb]
          · have hb : ¬(f.name == n) := by simp [Ne.symm h]
            simp [h, List.find?_cons_of_neg, hb]

theorem lookup_generateZodSchema (fields : List FormField) (n : String) :
    lookupSchema (generateZodSchema fields) n =
      (fields.reverse.find? (fun f => f.name == n)).map compileField := by
  rw [generateZodSchema, lookup_schema_foldl]
  cases (fields.reverse.find? (fun f => f.name == n)).map compileField <;>
    simp [lookupSchema]

theorem mem_schema_foldl {fs : List FormField} {m : SchemaMap}
    {p : String × FieldValidator}
    (h : p ∈ fs.foldl (fun acc f => insertKey acc f.name (compileField f)) m) :
    p ∈ m ∨ ∃ f ∈ fs, p = (f.name, compileField f) := by
  induction fs generalizing m with
  | nil => exact Or.inl (by simpa using h)
  | cons f rest ih =>
      rcases ih (by simpa using h) with hm | ⟨g, hg, rfl⟩
      · rcases mem_insertKey hm with h1 | h1
        · exact Or.inl h1
        · exact Or.inr ⟨f, by simp, h1⟩
      · exact Or.inr ⟨g, by simp [hg], rfl⟩

theorem mem_generateZodSchema {fields : List FormField} {p : String × FieldValidator}
    (h : p ∈ generateZodSchema fields) : ∃ f ∈ fields, p = (f.name, compileField f) := by
  rcases mem_schema_foldl h with hm | hx
  · simp at hm
  · exact hx

theorem nodup_keys_generateZodSchema (fields : List FormField) :
    ((generateZodSchema fields).map Prod.fst).Nodup := by
  rw [generateZodSchema]
  generalize hm : ([] : SchemaMap) = m
  have hnd : (m.map Prod.fst).Nodup := by rw [← hm]; simp
  clear hm
  induction fields generalizing m with
  | nil => simpa using hnd
  | cons f rest ih => exact ih _ (nodup_keys_insertKey hnd _ _)

theorem all_congr_mem {α : Type} {l : List α} {f g : α → Bool}
    (h : ∀ a ∈ l, f a = g a) : l.all f = l.all g := by
  induction l with
  | nil => rfl
  | cons a as ih =>
      simp only [List.all_cons, h a (by simp)]
      rw [ih (fun b hb => h b (by simp [hb]))]

theorem filterMap_congr_mem {α β : Type} {l : List α} {f g : α → Option β}
    (h : ∀ a ∈ l, f a = g a) : l.filterMap f = l.filterMap g := by
  induction l with
  | nil => rfl
  | cons a as ih =>
      rw [List.filterMap_cons, List.filterMap_cons, h a (by simp),
        ih (fun b hb => h b (by simp [hb]))]

theorem validate_congr (schema : SchemaMap) (r₁ r₂ : Record)
    (h : ∀ n ∈ schema.map Prod.fst, getVal r₁ n = getVal r₂ n ∧ hasKey r₁ n = hasKey r₂ n) :
    validate schema r₁ = validate schema r₂ := by
  have hmem : ∀ p ∈ schema, getVal r₁ p.1 = getVal r₂ p.1 ∧ hasKey r₁ p.1 = hasKey r₂ p.1 :=
    fun p hp => h p.1 (List.mem_map_of_mem Prod.fst hp)
  simp only [validate]
  congr 1
  · exact all_congr_mem (fun p hp => by simp only [(hmem p hp).1])
  · exact filterMap_congr_mem (fun p hp => by
      simp only [(hmem p hp).1, (hmem p hp).2])
  · exact filterMap_congr_mem (fun p hp => by simp only [(hmem p hp).1])

end FormGen

namespace FormGen

/-! ### Claim C1: required-field error behaviour -/

/-- The ten variants whose base rule is not a plain string schema. -/
def nonStringVariants : List String :=
  ["Checkbox", "Switch", "Date Picker", "Datetime Picker", "Smart Datetime Input",
   "File Input", "Location Input", "Multi Select", "Slider", "Tags Input"]

theorem stringBase_shape (f : FormField) (hv : f.variant ∉ nonStringVariants) :
    (baseSchema f (.str "")).aborted = false ∧
    (baseSchema f (.str "")).value = .str "" ∧
    baseSchema f Value.undef = ⟨true, ["Required"], .undef⟩ ∧
    baseSchema f Value.null = ⟨true, ["Expected string, received null"], .null⟩ := by
  obtain ⟨nm, lb, va, rq, ch, mi, ma, st⟩ := f
  simp only [nonStringVariants, List.mem_cons, List.not_mem_nil, or_false, not_or] at hv
  obtain ⟨h1, h2, h3, h4, h5, h6, h7, h8, h9, h10⟩ := hv
  by_cases hc1 : va = "Combobox"
  · subst hc1; exact ⟨rfl, rfl, rfl, rfl⟩
  by_cases hc2 : va = "Input"
  · subst hc2; exact ⟨rfl, rfl, rfl, rfl⟩
  by_cases hc3 : va = "Input OTP"
  · subst hc3; exact ⟨rfl, rfl, rfl, rfl⟩
  by_cases hc4 : va = "Password"
  · subst hc4; exact ⟨rfl, rfl, rfl, rfl⟩
  by_cases hc5 : va = "Phone"
  · subst hc5; exact ⟨rfl, rfl, rfl, rfl⟩
  by_cases hc6 : va = "Select"
  · subst hc6; exact ⟨rfl, rfl, rfl, rfl⟩
  by_cases hc7 : va = "Signature Input"
  · subst hc7; exact ⟨rfl, rfl, rfl, rfl⟩
  by_cases hc8 : va = "Textarea"
  · subst hc8; exact ⟨rfl, rfl, rfl, rfl⟩
  simp [baseSchema, h1, h2, h3, h4, h5, h6, h7, h8, h9, h10,
    hc1, hc2, hc3, hc4, hc5, hc6, hc7, hc8, parseString]
  rfl

/-- C1 counterexample: for the required Input field labelled "Name",
validating the empty string yields TWO errors — the base rule's own
emptiness message and the synthetic label message — not exactly one error
with the label message. -/
def cInputReq : FormField :=
  { name := "a", label := "Name", variant := "Input", required := true }

/-- C1 counterexample: the claim "exactly one error whose message is
`<label> is required`" fails on a required Input field given the empty
string: the code produces two errors. -/
theorem required_empty_not_single_error :
    (compileField cInputReq (.str "")).issues =
      ["This field is required", "Name is required"] ∧
    (compileField cInputReq (.str "")).issues ≠ ["Name is required"] := by
  constructor
  · rfl
  · decide

/-- C1 (amended): for every required field whose base rule is string-typed
(the eight string variants and any unrecognized variant), validating the
empty string appends the synthetic error `<label> is required` (label used
verbatim) after the base rule's own errors for the empty string; an absent
value is instead rejected by the base type check alone with message
"Required", and a null value with "Expected string, received null" — the
synthetic label message does not fire for absent or null values because
the base type check aborts first. -/
theorem required_label_error_on_empty (f : FormField) (hreq : f.required = true)
    (hv : f.variant ∉ nonStringVariants) :
    (compileField f (.str "")).issues =
      (baseSchema f (.str "")).issues ++ [f.label ++ " is required"] ∧
    (compileField f Value.undef).issues = ["Required"] ∧
    (compileField f Value.null).issues = ["Expected string, received null"] := by
  obtain ⟨habort, hval, hundef, hnull⟩ := stringBase_shape f hv
  refine ⟨?_, ?_, ?_⟩
  · simp only [compileField, hreq, if_pos, withRefine, habort, Bool.false_eq_true,
      if_neg, hval, requiredIssues]
    simp [withRefine, habort, hval, requiredIssues]
  · simp [compileField, hreq, withRefine, hundef]
  · simp [compileField, hreq, withRefine, hnull]

/-- C1 witness: the amended statement instantiated at the required Input
field labelled "Name". -/
theorem required_label_error_on_empty_witness :
    (compileField cInputReq (.str "")).issues =
      (baseSchema cInputReq (.str "")).issues ++ [cInputReq.label ++ " is required"] ∧
    (compileField cInputReq Value.undef).issues = ["Required"] ∧
    (compileField cInputReq Value.null).issues = ["Expected string, received null"] :=
  required_label_error_on_empty cInputReq rfl (by decide)

/-! ### Claim C2: optional composition -/

/-- C2 counterexample field: an optional Input. -/
def cInputOpt : FormField :=
  { name := "a", label := "Name", variant := "Input", required := false }

/-- C2 counterexample: an optional field does NOT accept the empty string
unconditionally — `.optional()` short-circuits only on an absent
(undefined) value, so the empty string is fully validated by the base rule
and rejected by Input's non-emptiness check. -/
theorem optional_empty_string_not_accepted :
    (compileField cInputOpt (.str "")).issues = ["This field is required"] ∧
    (compileField cInputOpt (.str "")).issues ≠ [] := by
  constructor
  · rfl
  · decide

/-- C2 (amended): for every field with required = false, the compiled
validator accepts an absent value unconditionally; every present value —
including the empty string — is validated fully against the variant's base
rule (with its coercions); and `validate {}` on a schema built from
only-optional fields returns ok. -/
theorem optional_composition :
    (∀ f : FormField, f.required = false →
      compileField f Value.undef = ⟨false, [], .undef⟩) ∧
    (∀ (f : FormField) (v : Value), f.required = false → v ≠ Value.undef →
      compileField f v = baseSchema f v) ∧
    (∀ fields : List FormField, (∀ f ∈ fields, f.required = false) →
      (validate (generateZodSchema fields) []).ok = true) := by
  refine ⟨?_, ?_, ?_⟩
  · intro f h
    simp [compileField, h, withOptional]
  · intro f v h hv
    cases v
    case undef => exact absurd rfl hv
    all_goals simp [compileField, h, withOptional]
  · intro fields hall
    simp only [validate, List.all_eq_true]
    intro p hp
    obtain ⟨f, hf, rfl⟩ := mem_generateZodSchema hp
    have hg : getVal [] f.name = Value.undef := rfl
    rw [hg]
    simp [compileField, hall f hf, withOptional]

/-- C2 witness: the amended statement instantiated at the optional Input
field (absent value accepted, present value validated by the base rule,
and the empty record validating ok). -/
theorem optional_composition_witness :
    compileField cInputOpt Value.undef = ⟨false, [], .undef⟩ ∧
    compileField cInputOpt (.str "x") = baseSchema cInputOpt (.str "x") ∧
    (validate (generateZodSchema [cInputOpt]) []).ok = true :=
  ⟨optional_composition.1 cInputOpt rfl,
   optional_composition.2.1 cInputOpt (.str "x") rfl (by simp),
   optional_composition.2.2 [cInputOpt]
     (by intro f hf; rw [List.mem_singleton] at hf; subst hf; rfl)⟩

/-! ### Claim C3: unknown variants and trivial aggregates -/

/-- The 18 recognized variant tags. -/
def recognizedVariants : List String :=
  ["Checkbox", "Combobox", "Date Picker", "Datetime Picker", "File Input", "Input",
   "Input OTP", "Location Input", "Multi Select", "Password", "Phone", "Select",
   "Signature Input", "Slider", "Smart Datetime Input", "Switch", "Tags Input",
   "Textarea"]

/-- C3 counterexample field: a required unrecognized variant. -/
def cFrobReq : FormField :=
  { name := "f", label := "F", variant := "Frobnicator", required := true }

/-- C3 counterexample: a list with zero recognized variants does NOT
always produce an always-valid aggregate — a required unrecognized field
rejects the empty record. -/
theorem unknown_required_rejects_empty_record :
    (validate (generateZodSchema [cFrobReq]) []).ok = false := by decide

/-- C3 witness field: an optional unrecognized variant. -/
def cFrobOpt : FormField :=
  { name := "f", label := "F", variant := "Frobnicator", required := false }

/-- C3 (amended): a field whose variant is not one of the 18 enumerated
tags compiles (without failing) to exactly the generic fallback — an
unconstrained string rule, wrapped as optional when required = false und
checked only for emptiness when required = true; and the compiler succeeds
on the empty list, whose aggregate accepts every record.  (A list with
zero recognized variants also compiles, but its aggregate is not
always-valid in general: see the counterexample.) -/
theorem unknown_variant_fallback :
    (∀ (f : FormField) (v : Value), f.variant ∉ recognizedVariants →
      baseSchema f v = parseString [] v ∧
      compileField f v =
        (if f.required then withRefine (parseString []) (requiredIssues f.label) v
         else withOptional (parseString []) v)) ∧
    (∀ r : Record, validate (generateZodSchema []) r = ⟨true, [], []⟩) := by
  constructor
  · intro f v hv
    obtain ⟨nm, lb, va, rq, ch, mi, ma, st⟩ := f
    simp only [recognizedVariants, List.mem_cons, List.not_mem_nil, or_false, not_or] at hv
    obtain ⟨g1, g2, g3, g4, g5, g6, g7, g8, g9, g10, g11, g12, g13, g14, g15, g16,
      g17, g18⟩ := hv
    have hbase : baseSchema ⟨nm, lb, va, rq, ch, mi, ma, st⟩ v = parseString [] v := by
      simp [baseSchema, g1, g2, g3, g4, g5, g6, g7, g8, g9, g10, g11, g12, g13, g14,
        g15, g16, g17, g18]
    refine ⟨hbase, ?_⟩
    cases rq
    · cases v <;> simp [compileField, withOptional, hbase]
    · simp [compileField, withRefine, hbase]
  · intro r
    rfl

/-- C3 witness: the amended statement instantiated at the unrecognized
variant "Frobnicator" and at a nonempty record for the empty field list. -/
theorem unknown_variant_fallback_witness :
    (baseSchema cFrobOpt (.str "hello") = parseString [] (.str "hello") ∧
      compileField cFrobOpt (.str "hello") =
        (if cFrobOpt.required then
          withRefine (parseString []) (requiredIssues cFrobOpt.label) (.str "hello")
         else withOptional (parseString []) (.str "hello"))) ∧
    validate (generateZodSchema []) [("x", .num 3)] = ⟨true, [], []⟩ :=
  ⟨unknown_variant_fallback.1 cFrobOpt (.str "hello") (by decide),
   unknown_variant_fallback.2 [("x", .num 3)]⟩

end FormGen

namespace FormGen

/-! ### Claim C4: Slider bounds and step -/

/-- C4 counterexample field: a Slider whose descriptor sets max = 0. -/
def cSliderZeroMax : FormField :=
  { name := "s", label := "S", variant := "Slider", max := some 0 }

/-- C4 counterexample: the fallback does not apply "exactly when the
descriptor leaves the bound absent" — `field.max || 100` also falls back
for a present max of 0 (JS falsy), so with max = 0 the value 50 is
accepted although 50 is not within [0, 0]. -/
theorem slider_zero_max_falls_back :
    (compileField cSliderZeroMax (.num 50)).issues = [] ∧
    cSliderZeroMax.max = some 0 ∧ ¬((50 : ℚ) ≤ 0) := by
  refine ⟨by decide, rfl, by norm_num⟩

/-- C4 (amended): a Slider field's compiled validator accepts a number v
iff v lies in [min', max'] and is an integer multiple of step', where
min', max', step' are the descriptor's values with fallback defaults 0,
100, 1 applying when the respective entry is absent OR equal to 0 (the JS
`||` fallback treats a present 0 as absent); bounds are inclusive. -/
theorem slider_accepts_iff (f : FormField) (q : ℚ) (hv : f.variant = "Slider") :
    (compileField f (.num q)).issues = [] ↔
      (jsOr f.min 0 ≤ q ∧ q ≤ jsOr f.max 100 ∧ isMultipleOf q (jsOr f.step 1) = true) := by
  obtain ⟨nm, lb, va, rq, ch, mi, ma, st⟩ := f
  simp only at hv
  subst hv
  cases rq <;>
    simp [compileField, baseSchema, withRefine, withOptional, requiredIssues,
      parseNumber, gteCheck, lteCheck, stepCheck, List.filterMap_eq_nil_iff, not_lt,
      and_assoc]

/-- C4 witness field: a Slider with explicit bounds 10, 20 and step 5. -/
def cSlider : FormField :=
  { name := "s", label := "S", variant := "Slider",
    min := some 10, max := some 20, step := some 5 }

/-- C4 witness: the amended statement instantiated at the explicit Slider
field and the value 15. -/
theorem slider_accepts_iff_witness :
    (compileField cSlider (.num 15)).issues = [] ↔
      (jsOr cSlider.min 0 ≤ 15 ∧ (15 : ℚ) ≤ jsOr cSlider.max 100 ∧
        isMultipleOf 15 (jsOr cSlider.step 1) = true) :=
  slider_accepts_iff cSlider 15 rfl

/-! ### Claim C5: Password rule -/

/-- C5 field: a Password field. -/
def cPassword : FormField := { name := "p", label := "P", variant := "Password" }

/-- C5: the Password base rule accepts a string iff it has length at least
8 and contains an uppercase letter, a lowercase letter, a digit, and a
non-alphanumeric character; "Abc12345!" passes, and "abc12345" fails with
exactly the two distinct messages for the missing uppercase letter and the
missing special character. -/
theorem password_rule :
    (∀ (f : FormField) (s : String), f.variant = "Password" →
      ((baseSchema f (.str s)).issues = [] ↔
        (8 ≤ s.length ∧ hasUpper s = true ∧ hasLower s = true ∧
          hasDigit s = true ∧ hasSpecial s = true))) ∧
    (baseSchema cPassword (.str "Abc12345!")).issues = [] ∧
    (baseSchema cPassword (.str "abc12345")).issues =
      ["Password must contain at least one uppercase letter",
       "Password must contain at least one special character"] := by
  refine ⟨?_, by decide, by decide⟩
  intro f s hv
  obtain ⟨nm, lb, va, rq, ch, mi, ma, st⟩ := f
  simp only at hv
  subst hv
  simp [baseSchema, parseString, List.filterMap_eq_nil_iff, minCheck, regexCheck,
    not_lt]

/-- C5 witness: the iff instantiated at the Password field and the string
"Abc12345!". -/
theorem password_rule_witness :
    (baseSchema cPassword (.str "Abc12345!")).issues = [] ↔
      (8 ≤ ("Abc12345!" : String).length ∧ hasUpper "Abc12345!" = true ∧
        hasLower "Abc12345!" = true ∧ hasDigit "Abc12345!" = true ∧
        hasSpecial "Abc12345!" = true) :=
  password_rule.1 cPassword "Abc12345!" rfl

/-! ### Claim C6: no short-circuit; coerced values -/

/-- C6: validation runs every field's validator: every field whose
validator reports issues contributes exactly its issue list to the error
result (regardless of other fields failing), and when validation succeeds
the output carries each field's (coerced/transformed) output value. -/
theorem validate_no_short_circuit (fields : List FormField) (r : Record)
    (n : String) (sch : FieldValidator)
    (h : lookupSchema (generateZodSchema fields) n = some sch) :
    ((sch (getVal r n)).issues ≠ [] →
      (n, (sch (getVal r n)).issues) ∈ (validate (generateZodSchema fields) r).errors) ∧
    ((validate (generateZodSchema fields) r).ok = true →
      keepValue (sch (getVal r n)).value (hasKey r n) = true →
      (n, (sch (getVal r n)).value) ∈ (validate (generateZodSchema fields) r).values) := by
  have hmem : (n, sch) ∈ generateZodSchema fields := by
    rw [lookupSchema] at h
    rcases Option.map_eq_some'.mp h with ⟨p, hp, hps⟩
    have hpn : p.1 = n := by simpa using List.find?_some hp
    have hpm := List.mem_of_find?_eq_some hp
    obtain ⟨p1, p2⟩ := p
    simp only at hpn hps
    subst hpn; subst hps
    exact hpm
  constructor
  · intro hne
    refine List.mem_filterMap.mpr ⟨(n, sch), hmem, ?_⟩
    simp [List.isEmpty_eq_true, hne]
  · intro _ hkeep
    refine List.mem_filterMap.mpr ⟨(n, sch), hmem, ?_⟩
    simp only [hkeep, if_pos]

/-- C6 witness fields and records: a required Input and a Slider, with a
record failing both and a record passing both. -/
def cInputReqB : FormField :=
  { name := "a", label := "Name", variant := "Input", required := true }
def cSliderB : FormField := { name := "b", label := "B", variant := "Slider" }
def rBad : Record := [("a", .str ""), ("b", .num 200)]
def rGood : Record := [("a", .str " x "), ("b", .num 5)]

/-- C6 witness: with both fields failing, each field's full issue list is
in the error result (no early abort after the first failing field); with
both passing, the output carries the trimmed Input value. -/
theorem validate_no_short_circuit_witness :
    ("a", ((compileField cInputReqB) (getVal rBad "a")).issues) ∈
      (validate (generateZodSchema [cInputReqB, cSliderB]) rBad).errors ∧
    ("b", ((compileField cSliderB) (getVal rBad "b")).issues) ∈
      (validate (generateZodSchema [cInputReqB, cSliderB]) rBad).errors ∧
    ("a", ((compileField cInputReqB) (getVal rGood "a")).value) ∈
      (validate (generateZodSchema [cInputReqB, cSliderB]) rGood).values ∧
    ((compileField cInputReqB) (getVal rGood "a")).value = .str "x" :=
  ⟨(validate_no_short_circuit [cInputReqB, cSliderB] rBad "a" _ rfl).1 (by decide),
   (validate_no_short_circuit [cInputReqB, cSliderB] rBad "b" _ rfl).1 (by decide),
   (validate_no_short_circuit [cInputReqB, cSliderB] rGood "a" _ rfl).2
     (by decide) (by decide),
   rfl⟩

/-! ### Claim C7: determinism and idempotence -/

/-- C7: compilation and validation are pure functions — compiling the same
field list twice yields validators that agree on every record, and
validating the same record twice yields identical results (in particular
identical error sets). -/
theorem compile_validate_deterministic (fields : List FormField) (r : Record) :
    validate (generateZodSchema fields) r = validate (generateZodSchema fields) r ∧
    (validate (generateZodSchema fields) r).errors =
      (validate (generateZodSchema fields) r).errors :=
  ⟨rfl, rfl⟩

/-! ### Claim C8: duplicate names, last write wins -/

/-- C8: the compiled aggregate has pairwise-distinct field names (so at
most one entry per name), and looking a name up yields exactly the
validator compiled from the LAST descriptor in list order bearing that
name; the compiler never rejects a duplicate. -/
theorem duplicate_name_last_wins (fields : List FormField) (n : String) :
    lookupSchema (generateZodSchema fields) n =
      (fields.reverse.find? (fun f => f.name == n)).map compileField ∧
    ((generateZodSchema fields).map Prod.fst).Nodup :=
  ⟨lookup_generateZodSchema fields n, nodup_keys_generateZodSchema fields⟩

end FormGen

namespace FormGen

/-! ### Claim C9: checks run on the raw string, before trimming -/

/-- C9 fields: an Input field and a Textarea field. -/
def cInputC9 : FormField := { name := "i", label := "I", variant := "Input" }
def cTextareaC9 : FormField := { name := "t", label := "T", variant := "Textarea" }

/-- A string of 1000 characters plus one trailing space: 1001 raw characters whose
trimmed form has 1000 characters. -/
def longStr : String := String.mk (List.replicate 1000 'a' ++ [' '])

set_option maxRecDepth 40000 in
/-- C9: for Input and Textarea the non-emptiness and length checks run on
the raw string and only then does the whitespace trim run; hence " "
satisfies the non-emptiness check and is coerced to "", and a Textarea
string of 1001 raw characters (1000 plus surrounding whitespace) is
rejected although its trimmed form is within the limit. -/
theorem checks_before_trim :
    (∀ (f : FormField) (s : String), f.variant = "Input" →
      (baseSchema f (.str s)).issues =
        (if s.length < 1 then ["This field is required"] else []) ∧
      ((baseSchema f (.str s)).issues = [] →
        (baseSchema f (.str s)).value = .str (jsTrim s))) ∧
    (∀ (f : FormField) (s : String), f.variant = "Textarea" →
      (baseSchema f (.str s)).issues =
        (if s.length < 1 then ["This field is required"] else []) ++
        (if 1000 < s.length then ["Maximum 1000 characters allowed"] else []) ∧
      ((baseSchema f (.str s)).issues = [] →
        (baseSchema f (.str s)).value = .str (jsTrim s))) ∧
    ((baseSchema cInputC9 (.str " ")).issues = [] ∧
      (baseSchema cInputC9 (.str " ")).value = .str "") ∧
    ((baseSchema cTextareaC9 (.str longStr)).issues =
        ["Maximum 1000 characters allowed"] ∧
      longStr.length = 1001 ∧ (jsTrim longStr).length ≤ 1000) := by
  refine ⟨?_, ?_, ⟨by decide, rfl⟩, ⟨by decide, by decide, by decide⟩⟩
  · intro f s hv
    obtain ⟨nm, lb, va, rq, ch, mi, ma, st⟩ := f
    simp only at hv
    subst hv
    constructor
    · by_cases hlen : s.length < 1 <;>
        simp [baseSchema, withTransform, parseString, minCheck, hlen]
    · intro hni
      by_cases hlen : s.length < 1
      · simp [baseSchema, withTransform, parseString, minCheck, hlen] at hni
      · simp [baseSchema, withTransform, parseString, minCheck, hlen]
  · intro f s hv
    obtain ⟨nm, lb, va, rq, ch, mi, ma, st⟩ := f
    simp only at hv
    subst hv
    constructor
    · by_cases hlen : s.length < 1 <;> by_cases hmax : 1000 < s.length <;>
        simp [baseSchema, withTransform, parseString, minCheck, maxCheck, hlen, hmax]
    · intro hni
      by_cases hlen : s.length < 1
      · simp [baseSchema, withTransform, parseString, minCheck, maxCheck, hlen] at hni
      · by_cases hmax : 1000 < s.length
        · simp [baseSchema, withTransform, parseString, minCheck, maxCheck,
            hlen, hmax] at hni
        · simp [baseSchema, withTransform, parseString, minCheck, maxCheck, hlen, hmax]

/-- C9 witness: the Input part instantiated at the Input field and the
string "abc". -/
theorem checks_before_trim_witness :
    (baseSchema cInputC9 (.str "abc")).issues =
      (if ("abc" : String).length < 1 then ["This field is required"] else []) ∧
    ((baseSchema cInputC9 (.str "abc")).issues = [] →
      (baseSchema cInputC9 (.str "abc")).value = .str (jsTrim "abc")) :=
  checks_before_trim.1 cInputC9 "abc" rfl

/-! ### Claim C10: unknown record keys are ignored and stripped -/

/-- C10: a key of the submission record that is not a compiled field name
is never validated (validation depends only on the record's values at the
schema's keys) and cannot appear in the coerced output — every output key
is one of the descriptors' names. -/
theorem extra_keys_ignored :
    (∀ (fields : List FormField) (r : Record) (p : String × Value),
      p ∈ (validate (generateZodSchema fields) r).values →
      p.1 ∈ fields.map FormField.name) ∧
    (∀ (fields : List FormField) (r₁ r₂ : Record),
      (∀ n ∈ (generateZodSchema fields).map Prod.fst,
        getVal r₁ n = getVal r₂ n ∧ hasKey r₁ n = hasKey r₂ n) →
      validate (generateZodSchema fields) r₁ = validate (generateZodSchema fields) r₂) := by
  constructor
  · intro fields r p hp
    simp only [validate] at hp
    rcases List.mem_filterMap.mp hp with ⟨q, hq, hqp⟩
    obtain ⟨f, hf, rfl⟩ := mem_generateZodSchema hq
    split at hqp
    · cases hqp
      exact List.mem_map_of_mem FormField.name hf
    · cases hqp
  · intro fields r₁ r₂ h
    exact validate_congr _ r₁ r₂ h

/-- C10 witness field and records: one Select field, one record with an
extra unknown key and one without. -/
def cSelectW : FormField := { name := "a", label := "A", variant := "Select" }
def rWithJunk : Record := [("junk", .num 3), ("a", .str "x")]
def rNoJunk : Record := [("a", .str "x")]

/-- C10 witness: the output key of the one-field schema is the field's
name, and adding an unknown key "junk" to the record changes nothing. -/
theorem extra_keys_ignored_witness :
    ("a", Value.str "x").1 ∈ [cSelectW].map FormField.name ∧
    validate (generateZodSchema [cSelectW]) rWithJunk =
      validate (generateZodSchema [cSelectW]) rNoJunk :=
  ⟨extra_keys_ignored.1 [cSelectW] rWithJunk ("a", .str "x")
      (by
        have hv : (validate (generateZodSchema [cSelectW]) rWithJunk).values =
            [("a", Value.str "x")] := rfl
        rw [hv]
        exact List.mem_singleton_self _),
   extra_keys_ignored.2 [cSelectW] rWithJunk rNoJunk
      (by
        intro n hn
        have hk : (generateZodSchema [cSelectW]).map Prod.fst = ["a"] := rfl
        rw [hk, List.mem_singleton] at hn
        subst hn
        exact ⟨rfl, rfl⟩)⟩

end FormGen
